import Mathlib

/-!
Verification of the polygon-mesh builder `buildPolyData` from
`vtkplotter/utils.py` (lines 203-331).

The builder is embedded shallowly:

* point coordinates and cell indices are `Int` (the Python code performs only
  exact integer arithmetic on indices, and appends literal zeros to
  coordinates, so no floating-point behaviour is involved in the claims);
* a cell is the list of point indices it references;
* Python exceptions are modelled by `Option`: `none` means the call raises.

The embedding follows the source line by line; comments cite the Python lines.
-/

set_option autoImplicit false

namespace Vtk

/-- A cell of the output polydata: the list of point ids it references. -/
abbrev Cell := List Int

/-- The `vtkPolyData` result of `buildPolyData`: its points and its cell
arrays, classified as in the source (`SetLines`, `SetVerts`, `SetPolys`).
VTK cell arrays store only connectivity, so a cell is its index list. -/
structure PolyData where
  points : List (List Int)
  lineCells : List Cell
  vertCells : List Cell
  polyCells : List Cell
  deriving Repr, DecidableEq

/-- Lines 219-222 of `utils.py`: if `len(vertices[0]) < 3`, append a zero
column (`np.c_[vertices, zeros]`), and if the new first row has length 2,
append a second zero column.  Row-wise append models the column append of
`np.c_` on a rectangular table. -/
def padPoints (vertices : List (List Int)) : List (List Int) :=
  match vertices.head? with
  | none => vertices
  | some v0 =>
    if v0.length < 3 then
      let vs1 := vertices.map (fun v => v ++ [0])
      if (v0 ++ [0]).length = 2 then vs1.map (fun v => v ++ [0]) else vs1
    else vertices

/-- Lines 234-238: `for i in range(1, len(lines)-1)` emit the segment
`(lines[i], lines[i+1])`.  Note that no `indexOffset` is applied here. -/
def lineCellsOf (lines : List Int) : List Cell :=
  (List.range' 1 (lines.length - 1 - 1)).map
    (fun i => [lines.getD i 0, lines.getD (i + 1) 0])

/-- One segment cell per consecutive pair of a list (used to restate
`lineCellsOf` structurally in the claims). -/
def consecPairs : List Int → List Cell
  | a :: b :: t => [a, b] :: consecPairs (b :: t)
  | _ => []

/-- Line 254: `len(np.array(faces).shape) == 2`, i.e. `np.array(faces)` is a
two-dimensional table.  `np.array` of an empty list has shape `(0,)`, so the
table must be nonempty with all rows of equal length. -/
def isRect (faces : List (List Int)) : Bool :=
  match faces with
  | [] => false
  | f :: fs => fs.all (fun g => g.length == f.length)

/-- Line 254: the condition selecting the fast path,
`len(faces.shape) == 2 and indexOffset == 0 and fast`. -/
def fastPathTaken (faces : List (List Int)) (indexOffset : Int) (fast : Bool) :
    Bool :=
  isRect faces && indexOffset == 0 && fast

/-- Line 262: `np.hstack((zeros[:,None] + nc, faces)).ravel()` — each row is
prefixed by its length and the rows are concatenated into one flat id
buffer. -/
def fastBuffer (faces : List (List Int)) : List Int :=
  (faces.map (fun f => ((f.length : Int)) :: f)).flatten

/-- Line 264: `sourcePolygons.SetCells(nf, arr)` — the cell array reads `n`
cells out of the flat buffer, each stored as a count followed by that many
point ids. -/
def decodeCells : Nat → List Int → List Cell
  | 0, _ => []
  | _ + 1, [] => []
  | n + 1, c :: rest => rest.take c.toNat :: decodeCells n (rest.drop c.toNat)

/-- Lines 273-326, the slow path body for one face row `f`:
* `n == 3` (lines 276-281): one triangle of `f[i] - indexOffset`;
* `n == 4` (lines 283-318): `f[i] -= indexOffset` (when the offset is
  nonzero; subtracting zero coincides with the untouched row), then the four
  triangles `(f0,f1,f2), (f0,f1,f3), (f1,f2,f3), (f2,f3,f0)`;
* otherwise (lines 320-326): one polygon of all `f[i] - indexOffset`. -/
def slowFaceCells (indexOffset : Int) (f : List Int) : List Cell :=
  if f.length = 3 then
    [f.map (fun x => x - indexOffset)]
  else if f.length = 4 then
    match f.map (fun x => x - indexOffset) with
    | [f0, f1, f2, f3] => [[f0, f1, f2], [f0, f1, f3], [f1, f2, f3], [f2, f3, f0]]
    | _ => []
  else
    [f.map (fun x => x - indexOffset)]

/-- Lines 252-330: the polygon cell array — the fast path decodes the flat
buffer, the slow path processes the rows one by one in order. -/
def polyCellsOf (faces : List (List Int)) (indexOffset : Int) (fast : Bool) :
    List Cell :=
  if fastPathTaken faces indexOffset fast then
    decodeCells faces.length (fastBuffer faces)
  else
    (faces.map (slowFaceCells indexOffset)).flatten

/-- Lines 203-331: `buildPolyData(vertices, faces=None, lines=None,
indexOffset=0, fast=True)`.

`none` models a raised exception:
* `vertices = []` raises `IndexError` at line 219 (`len(vertices[0])`);
* a ragged coordinate table makes `np.c_` / `numpy_to_vtk` fail
  (`np.array` of inhomogeneous rows is not a numeric matrix), modelled by
  the rectangularity guard. -/
def buildPolyData (vertices : List (List Int)) (faces : Option (List (List Int)))
    (lines : Option (List Int)) (indexOffset : Int) (fast : Bool) :
    Option PolyData :=
  match vertices.head? with
  | none => none
  | some v0 =>
    if vertices.all (fun v => v.length == v0.length) then
      let pts := padPoints vertices
      some
        { points := pts
          lineCells :=
            match lines with
            | none => []
            | some ls => lineCellsOf ls
          vertCells :=
            match faces with
            | none => (List.range pts.length).map (fun i => [Int.ofNat i])
            | some _ => []
          polyCells :=
            match faces with
            | none => []
            | some fs => polyCellsOf fs indexOffset fast }
    else none

/-- The caller-visible face table after the call.  Line 253 rebinds `faces`
to `np.array(faces)`:
* a rectangular table becomes a fresh two-dimensional copy, so the in-place
  decrement of line 292 never reaches the caller;
* a ragged table becomes an object array holding references to the caller's
  own (mutable) rows, so the decrement `f[i] -= indexOffset` of lines
  290-292 (run for each row of length 4 when the offset is nonzero; ragged
  tables always take the slow path) is visible to the caller. -/
def facesAfterBuild (faces : List (List Int)) (indexOffset : Int)
    (_fast : Bool) : List (List Int) :=
  if isRect faces then faces
  else
    faces.map (fun f =>
      if f.length = 4 ∧ indexOffset ≠ 0 then f.map (fun x => x - indexOffset)
      else f)

/-! ### Helper lemmas -/

/-- Inversion of a successful build: each field of the result in terms of the
component functions. -/
theorem build_inv {vertices : List (List Int)} {faces : Option (List (List Int))}
    {lns : Option (List Int)} {o : Int} {fast : Bool} {pd : PolyData}
    (hpd : buildPolyData vertices faces lns o fast = some pd) :
    pd.points = padPoints vertices ∧
    pd.lineCells = (match lns with | none => [] | some ls => lineCellsOf ls) ∧
    pd.vertCells = (match faces with
      | none => (List.range (padPoints vertices).length).map (fun i => [Int.ofNat i])
      | some _ => []) ∧
    pd.polyCells = (match faces with
      | none => []
      | some fs => polyCellsOf fs o fast) := by
  unfold buildPolyData at hpd
  split at hpd
  · exact absurd hpd (by simp)
  · split at hpd
    · injection hpd with h
      subst h
      refine ⟨rfl, ?_, ?_, ?_⟩
      · cases lns <;> rfl
      · cases faces <;> rfl
      · cases faces <;> rfl
    · exact absurd hpd (by simp)

/-- Padding does not change the number of points. -/
theorem padPoints_length (vertices : List (List Int)) :
    (padPoints vertices).length = vertices.length := by
  unfold padPoints
  split
  · rfl
  · split
    · split <;> simp
    · rfl

/-- A nonempty uniform table is rectangular in the sense of line 254. -/
theorem isRect_of_uniform {faces : List (List Int)} {k : Nat}
    (hne : faces ≠ []) (hk : ∀ f ∈ faces, f.length = k) :
    isRect faces = true := by
  cases faces with
  | nil => exact absurd rfl hne
  | cons f fs =>
    unfold isRect
    rw [List.all_eq_true]
    intro g hg
    have h1 : g.length = k := hk g (List.mem_cons_of_mem f hg)
    have h2 : f.length = k := hk f (List.mem_cons_self f fs)
    simp [h1, h2]

/-- Reading back the flat fast-path buffer recovers exactly the input rows. -/
theorem decode_fastBuffer (faces : List (List Int)) :
    decodeCells faces.length (fastBuffer faces) = faces := by
  induction faces with
  | nil => rfl
  | cons f fs ih =>
    show decodeCells (fs.length + 1)
        ((((f.length : Int)) :: f) ++ fastBuffer fs) = f :: fs
    rw [List.cons_append]
    unfold decodeCells
    rw [Int.toNat_ofNat, List.take_left, List.drop_left, ih]

/-- Index shift for the line-segment map: prepending one element and moving
the index window up by one reads the same pairs. -/
theorem map_getD_shift (xs : List Int) (x : Int) (s k : Nat) :
    (List.range' (s + 1) k).map
        (fun i => [(x :: xs).getD i 0, (x :: xs).getD (i + 1) 0]) =
      (List.range' s k).map (fun i => [xs.getD i 0, xs.getD (i + 1) 0]) := by
  rw [List.range'_eq_map_range, List.range'_eq_map_range, List.map_map,
    List.map_map]
  apply List.map_congr_left
  intro j _
  have h1 : s + 1 + j = (s + j) + 1 := by omega
  have h2 : s + 1 + j + 1 = (s + j + 1) + 1 := by omega
  simp only [Function.comp_apply, h1, h2, List.getD_cons_succ]

/-- The index-loop form of the line cells equals one cell per consecutive
pair of the tail of the list. -/
theorem lineCellsOf_eq_consecPairs (ls : List Int) :
    lineCellsOf ls = consecPairs (ls.drop 1) := by
  cases ls with
  | nil => rfl
  | cons a t =>
    rw [List.drop_one, List.tail_cons]
    induction t generalizing a with
    | nil => rfl
    | cons b rest ih =>
      cases rest with
      | nil => rfl
      | cons c t2 =>
        show lineCellsOf (a :: b :: c :: t2) = consecPairs (b :: c :: t2)
        have hlen : (a :: b :: c :: t2).length - 1 - 1 = t2.length + 1 := by
          simp
        unfold lineCellsOf
        rw [hlen, List.range'_succ, List.map_cons, map_getD_shift]
        have htail :
            (List.range' 1 t2.length).map
                (fun i => [(b :: c :: t2).getD i 0, (b :: c :: t2).getD (i + 1) 0]) =
              lineCellsOf (b :: c :: t2) := by
          unfold lineCellsOf
          have : (b :: c :: t2).length - 1 - 1 = t2.length := by simp
          rw [this]
        rw [htail, ih b]
        rfl

/-- The number of emitted segments is the length of `lines` minus two
(truncated at zero). -/
theorem lineCellsOf_length (ls : List Int) :
    (lineCellsOf ls).length = ls.length - 2 := by
  unfold lineCellsOf
  rw [List.length_map, List.length_range']
  omega

/-- Each slow-path row contributes four cells when it has four vertices and
one cell otherwise. -/
theorem slowFaceCells_length (o : Int) (f : List Int) :
    (slowFaceCells o f).length = if f.length = 4 then 4 else 1 := by
  unfold slowFaceCells
  rcases f with _ | ⟨a, _ | ⟨b, _ | ⟨c, _ | ⟨d, _ | ⟨e, t⟩⟩⟩⟩⟩ <;> simp

/-- Total slow-path cell count: one per face plus three extra per
four-vertex face. -/
theorem slow_cells_length (o : Int) (faces : List (List Int)) :
    ((faces.map (slowFaceCells o)).flatten).length =
      faces.length + 3 * faces.countP (fun f => f.length = 4) := by
  induction faces with
  | nil => rfl
  | cons f fs ih =>
    rw [List.map_cons, List.flatten_cons, List.length_append, ih,
      slowFaceCells_length, List.countP_cons]
    by_cases h : f.length = 4 <;> simp [h] <;> omega

/-- Shifting every index of a row up by one and building with offset one
yields the same cells as offset zero on the original row. -/
theorem slowFaceCells_shift (f : List Int) :
    slowFaceCells 1 (f.map (fun x => x + 1)) = slowFaceCells 0 f := by
  have hmap : (f.map (fun x => x + 1)).map (fun x => x - (1 : Int)) =
      f.map (fun x => x - (0 : Int)) := by
    rw [List.map_map]
    apply List.map_congr_left
    intro x _
    simp only [Function.comp_apply]
    omega
  unfold slowFaceCells
  rw [List.length_map, hmap]

/-- Shifting the rows leaves the slow-path cells of a whole table unchanged
when the offset moves from zero to one. -/
theorem polyCellsOf_shift (faces : List (List Int)) :
    polyCellsOf (faces.map (fun f => f.map (fun x => x + 1))) 1 false =
      polyCellsOf faces 0 false := by
  unfold polyCellsOf
  have h1 : fastPathTaken (faces.map (fun f => f.map (fun x => x + 1))) 1 false
      = false := by
    simp [fastPathTaken]
  have h2 : fastPathTaken faces 0 false = false := by
    simp [fastPathTaken]
  rw [if_neg (by simp [h1]), if_neg (by simp [h2]), List.map_map]
  congr 1
  apply List.map_congr_left
  intro f _
  exact slowFaceCells_shift f

/-! ### The claims -/

/-- Claim C1 (counterexample): with `points` the unit square, a single face
`[0,1,2,3]`, `indexOffset = 0` and all other arguments at their defaults
(`fast = True`), the builder takes the fast path and emits exactly one
four-index polygon cell `[0,1,2,3]`, not the four triangle cells the claim
asserts. -/
theorem c1_counterexample :
    (buildPolyData [[0, 0, 0], [1, 0, 0], [1, 1, 0], [0, 1, 0]]
        (some [[0, 1, 2, 3]]) none 0 true).map PolyData.polyCells =
      some [[0, 1, 2, 3]] ∧
    (buildPolyData [[0, 0, 0], [1, 0, 0], [1, 1, 0], [0, 1, 0]]
        (some [[0, 1, 2, 3]]) none 0 true).map PolyData.polyCells ≠
      some [[0, 1, 2], [0, 1, 3], [1, 2, 3], [2, 3, 0]] := by
  decide

/-- Claim C1 (amended): with the default `fast = True` the builder takes the
fast path on `faces = [[0,1,2,3]]` and produces exactly one polygon cell
`[0,1,2,3]`; the four triangle cells of the claim are produced only when the
slow path is forced, e.g. with `fast = False`. -/
theorem c1_fast_vs_slow_quad :
    (buildPolyData [[0, 0, 0], [1, 0, 0], [1, 1, 0], [0, 1, 0]]
        (some [[0, 1, 2, 3]]) none 0 true).map PolyData.polyCells =
      some [[0, 1, 2, 3]] ∧
    (buildPolyData [[0, 0, 0], [1, 0, 0], [1, 1, 0], [0, 1, 0]]
        (some [[0, 1, 2, 3]]) none 0 false).map PolyData.polyCells =
      some [[0, 1, 2], [0, 1, 3], [1, 2, 3], [2, 3, 0]] := by
  decide

/-- Claim C2: for every nonempty face table whose rows all have length `k`,
built with `indexOffset = 0` and the default `fast = True`, the builder takes
the fast path and the output polygon cells are exactly the input rows — same
count, same indices, same order. -/
theorem c2_fast_path_cells (vertices faces : List (List Int))
    (lns : Option (List Int)) (k : Nat) (pd : PolyData)
    (hne : faces ≠ []) (hk : ∀ f ∈ faces, f.length = k)
    (hpd : buildPolyData vertices (some faces) lns 0 true = some pd) :
    fastPathTaken faces 0 true = true ∧
    pd.polyCells = faces ∧
    pd.polyCells.length = faces.length := by
  have hrect := isRect_of_uniform hne hk
  have hfast : fastPathTaken faces 0 true = true := by
    simp [fastPathTaken, hrect]
  have hcells : pd.polyCells = polyCellsOf faces 0 true := (build_inv hpd).2.2.2
  rw [polyCellsOf, if_pos (by simp [hfast]), decode_fastBuffer] at hcells
  exact ⟨hfast, hcells, by rw [hcells]⟩

/-- Witness for C2 at a concrete rectangular table of two triangles. -/
theorem c2_witness :
    fastPathTaken [[0, 1, 2], [2, 3, 0]] 0 true = true ∧
    (⟨[[0, 0, 0], [1, 0, 0], [1, 1, 0], [0, 1, 0]], [], [],
        [[0, 1, 2], [2, 3, 0]]⟩ : PolyData).polyCells = [[0, 1, 2], [2, 3, 0]] ∧
    (⟨[[0, 0, 0], [1, 0, 0], [1, 1, 0], [0, 1, 0]], [], [],
        [[0, 1, 2], [2, 3, 0]]⟩ : PolyData).polyCells.length = 2 :=
  c2_fast_path_cells [[0, 0, 0], [1, 0, 0], [1, 1, 0], [0, 1, 0]]
    [[0, 1, 2], [2, 3, 0]] none 3
    ⟨[[0, 0, 0], [1, 0, 0], [1, 1, 0], [0, 1, 0]], [], [], [[0, 1, 2], [2, 3, 0]]⟩
    (by decide) (by decide) (by decide)

/-- Claim C3: on the slow path each 3-index row yields one triangle of its
offset-adjusted indices, each 4-index row `[a,b,c,d]` yields exactly the four
triangles `(a,b,c), (a,b,d), (b,c,d), (c,d,a)` (offset-adjusted), every other
row yields one n-gon of its offset-adjusted indices in order, and the total
cell count is `len(faces)` plus three for every 4-index row — no face is
dropped. -/
theorem c3_slow_path_cells (vertices fs : List (List Int))
    (lns : Option (List Int)) (o : Int) (fast : Bool) (pd : PolyData)
    (hslow : fastPathTaken fs o fast = false)
    (hpd : buildPolyData vertices (some fs) lns o fast = some pd) :
    pd.polyCells =
      (fs.map (fun f =>
        if f.length = 4 then
          match f.map (fun x => x - o) with
          | [a, b, c, d] => [[a, b, c], [a, b, d], [b, c, d], [c, d, a]]
          | _ => []
        else [f.map (fun x => x - o)])).flatten ∧
    pd.polyCells.length = fs.length + 3 * fs.countP (fun f => f.length = 4) := by
  have hcells : pd.polyCells = polyCellsOf fs o fast := (build_inv hpd).2.2.2
  rw [polyCellsOf, if_neg (by simp [hslow])] at hcells
  constructor
  · rw [hcells]
    congr 1
    apply List.map_congr_left
    intro f _
    by_cases h3 : f.length = 3
    · have h4 : ¬ f.length = 4 := by omega
      simp [slowFaceCells, h3, h4]
    · by_cases h4 : f.length = 4 <;> simp [slowFaceCells, h3, h4]
  · rw [hcells, slow_cells_length]

/-- Witness for C3 at a table holding a triangle, a 4-index row and a
pentagon, with `fast = False` forcing the slow path. -/
theorem c3_witness :
    (⟨[[0, 0, 0], [1, 0, 0], [1, 1, 0], [0, 1, 0], [0, 0, 1]], [], [],
        [[0, 1, 2], [1, 2, 3], [1, 2, 4], [2, 3, 4], [3, 4, 1],
         [0, 1, 2, 3, 4]]⟩ : PolyData).polyCells =
      (([[0, 1, 2], [1, 2, 3, 4], [0, 1, 2, 3, 4]] : List (List Int)).map
        (fun f =>
          if f.length = 4 then
            match f.map (fun x => x - (0 : Int)) with
            | [a, b, c, d] => [[a, b, c], [a, b, d], [b, c, d], [c, d, a]]
            | _ => []
          else [f.map (fun x => x - (0 : Int))])).flatten ∧
    (⟨[[0, 0, 0], [1, 0, 0], [1, 1, 0], [0, 1, 0], [0, 0, 1]], [], [],
        [[0, 1, 2], [1, 2, 3], [1, 2, 4], [2, 3, 4], [3, 4, 1],
         [0, 1, 2, 3, 4]]⟩ : PolyData).polyCells.length = 3 + 3 * 1 :=
  c3_slow_path_cells [[0, 0, 0], [1, 0, 0], [1, 1, 0], [0, 1, 0], [0, 0, 1]]
    [[0, 1, 2], [1, 2, 3, 4], [0, 1, 2, 3, 4]] none 0 false
    ⟨[[0, 0, 0], [1, 0, 0], [1, 1, 0], [0, 1, 0], [0, 0, 1]], [], [],
      [[0, 1, 2], [1, 2, 3], [1, 2, 4], [2, 3, 4], [3, 4, 1], [0, 1, 2, 3, 4]]⟩
    (by decide) (by decide)

/-- Claim C4 (counterexample): with default `fast = True`, building the unit
square with `faces = [[0,1,2,3]], indexOffset = 0` takes the fast path (one
quad cell) while the shifted table `[[1,2,3,4]]` with `indexOffset = 1` takes
the slow path (four triangles), so the outputs differ. -/
theorem c4_counterexample :
    buildPolyData [[0, 0, 0], [1, 0, 0], [1, 1, 0], [0, 1, 0]]
        (some [[0, 1, 2, 3]]) none 0 true ≠
      buildPolyData [[0, 0, 0], [1, 0, 0], [1, 1, 0], [0, 1, 0]]
        (some [[1, 2, 3, 4]]) none 1 true := by
  decide

/-- Claim C4 (amended): when both builds take the slow path (`fast = False`),
building with `indexOffset = 0` on `F0` and with `indexOffset = 1` on the
table with every index shifted up by one produce identical outputs; with the
default `fast = True` this fails for rectangular tables of 4-index rows,
which take the fast path at offset 0 but the slow path at offset 1. -/
theorem c4_offset_shift_slow (vertices faces : List (List Int))
    (lns : Option (List Int)) :
    buildPolyData vertices
        (some (faces.map (fun f => f.map (fun x => x + 1)))) lns 1 false =
      buildPolyData vertices (some faces) lns 0 false := by
  simp only [buildPolyData, polyCellsOf_shift]

/-- Claim C5 (counterexample): zero points make the build raise (line 219
reads `vertices[0]`), modelled as `none`; in particular it does not return
the empty mesh. -/
theorem c5_counterexample :
    buildPolyData [] none none 0 true = none ∧
    buildPolyData [] none none 0 true ≠ some ⟨[], [], [], []⟩ := by
  decide

/-- Claim C5 (amended): with zero points the build fails for every
combination of the remaining arguments — `len(vertices[0])` raises
`IndexError` before anything is constructed — rather than returning an empty
mesh. -/
theorem c5_empty_points_fail (faces : Option (List (List Int)))
    (lns : Option (List Int)) (o : Int) (fast : Bool) :
    buildPolyData [] faces lns o fast = none :=
  rfl

/-- Claim C6: the builder emits one segment cell `(lines[i], lines[i+1])` for
each `i` in `[1, len(lines)-2]` — equivalently one cell per consecutive pair
of the tail of `lines`, the first element being skipped as a header — so the
segment count is `len(lines) - 2` truncated at zero. -/
theorem c6_line_segments (vertices : List (List Int))
    (faces : Option (List (List Int))) (ls : List Int) (o : Int) (fast : Bool)
    (pd : PolyData)
    (hpd : buildPolyData vertices faces (some ls) o fast = some pd) :
    pd.lineCells =
      (List.range' 1 (ls.length - 1 - 1)).map
        (fun i => [ls.getD i 0, ls.getD (i + 1) 0]) ∧
    pd.lineCells = consecPairs (ls.drop 1) ∧
    pd.lineCells.length = ls.length - 2 := by
  have h : pd.lineCells = lineCellsOf ls := (build_inv hpd).2.1
  refine ⟨h, ?_, ?_⟩
  · rw [h, lineCellsOf_eq_consecPairs]
  · rw [h, lineCellsOf_length]

/-- Witness for C6 at the spec scenario: five points,
`lines = [5,0,1,2,3]`; the leading `5` is skipped and the segments are
`(0,1), (1,2), (2,3)`. -/
theorem c6_witness :
    (⟨[[0, 0, 0], [1, 1, 1], [2, 2, 2], [3, 3, 3], [4, 4, 4]],
        [[0, 1], [1, 2], [2, 3]], [[0], [1], [2], [3], [4]], []⟩ :
      PolyData).lineCells = [[0, 1], [1, 2], [2, 3]] ∧
    (⟨[[0, 0, 0], [1, 1, 1], [2, 2, 2], [3, 3, 3], [4, 4, 4]],
        [[0, 1], [1, 2], [2, 3]], [[0], [1], [2], [3], [4]], []⟩ :
      PolyData).lineCells = [[0, 1], [1, 2], [2, 3]] ∧
    (⟨[[0, 0, 0], [1, 1, 1], [2, 2, 2], [3, 3, 3], [4, 4, 4]],
        [[0, 1], [1, 2], [2, 3]], [[0], [1], [2], [3], [4]], []⟩ :
      PolyData).lineCells.length = 3 :=
  c6_line_segments [[0, 0, 0], [1, 1, 1], [2, 2, 2], [3, 3, 3], [4, 4, 4]]
    none [5, 0, 1, 2, 3] 0 true
    ⟨[[0, 0, 0], [1, 1, 1], [2, 2, 2], [3, 3, 3], [4, 4, 4]],
      [[0, 1], [1, 2], [2, 3]], [[0], [1], [2], [3], [4]], []⟩
    (by decide)

/-- Claim C7 (counterexample): `faces = [[1,2,3,4]]` with `indexOffset = 1`
takes the slow path, yet the caller's table is not mutated: line 253 rebinds
`faces` to a fresh two-dimensional `np.array` copy, so the in-place decrement
of lines 290-292 touches only that copy. -/
theorem c7_counterexample :
    fastPathTaken [[1, 2, 3, 4]] 1 true = false ∧
    facesAfterBuild [[1, 2, 3, 4]] 1 true = [[1, 2, 3, 4]] ∧
    facesAfterBuild [[1, 2, 3, 4]] 1 true ≠ [[0, 1, 2, 3]] := by
  decide

/-- Claim C7 (amended): the in-place decrement of 4-index rows reaches the
caller only when `np.array(faces)` aliases the caller's rows, i.e. for
non-rectangular (ragged) tables, which always take the slow path; there,
with a nonzero offset, every 4-index row is decremented in caller-visible
storage and every other row is left alone. -/
theorem c7_mutation_visibility (faces : List (List Int)) (o : Int)
    (fast : Bool) (hragged : isRect faces = false) (ho : o ≠ 0) :
    fastPathTaken faces o fast = false ∧
    facesAfterBuild faces o fast =
      faces.map (fun f =>
        if f.length = 4 then f.map (fun x => x - o) else f) := by
  constructor
  · simp [fastPathTaken, hragged]
  · rw [facesAfterBuild, if_neg (by simp [hragged])]
    apply List.map_congr_left
    intro f _
    by_cases h4 : f.length = 4 <;> simp [h4, ho]

/-- Witness for C7 at a ragged table: the 4-index row is decremented in
caller-visible storage, the 2-index row is untouched. -/
theorem c7_witness :
    fastPathTaken [[0, 1], [1, 2, 3, 4]] 1 true = false ∧
    facesAfterBuild [[0, 1], [1, 2, 3, 4]] 1 true = [[0, 1], [0, 1, 2, 3]] :=
  c7_mutation_visibility [[0, 1], [1, 2, 3, 4]] 1 true (by decide) (by decide)

/-- Claim C8: for a nonempty point table whose rows all have `d` components,
`1 ≤ d ≤ 3`, the stored points are the input rows zero-padded to three
components (3-component rows are stored unchanged). -/
theorem c8_point_padding (vertices : List (List Int))
    (faces : Option (List (List Int))) (lns : Option (List Int)) (o : Int)
    (fast : Bool) (d : Nat) (pd : PolyData)
    (hne : vertices ≠ []) (hd : ∀ v ∈ vertices, v.length = d)
    (h1 : 1 ≤ d) (h3 : d ≤ 3)
    (hpd : buildPolyData vertices faces lns o fast = some pd) :
    pd.points = vertices.map (fun v => v ++ List.replicate (3 - d) 0) := by
  rw [(build_inv hpd).1]
  cases vertices with
  | nil => exact absurd rfl hne
  | cons v0 t =>
    have hv0 : v0.length = d := hd v0 (List.mem_cons_self v0 t)
    rw [padPoints]
    simp only [List.head?_cons]
    interval_cases d
    · rw [if_pos (by omega), if_pos (by simp [hv0]), List.map_map]
      apply List.map_congr_left
      intro v _
      simp [Function.comp, List.append_assoc]
    · rw [if_pos (by omega), if_neg (by simp [hv0])]
      apply List.map_congr_left
      intro v _
      rfl
    · rw [if_neg (by omega)]
      simp

/-- Witness for C8 at the spec scenario: three 2D points are promoted to
`(x, y, 0)`. -/
theorem c8_witness :
    (⟨[[0, 0, 0], [1, 0, 0], [1, 1, 0]], [], [[0], [1], [2]], []⟩ :
      PolyData).points = [[0, 0, 0], [1, 0, 0], [1, 1, 0]] :=
  c8_point_padding [[0, 0], [1, 0], [1, 1]] none none 0 true 2
    ⟨[[0, 0, 0], [1, 0, 0], [1, 1, 0]], [], [[0], [1], [2]], []⟩
    (by decide) (by decide) (by decide) (by decide) (by decide)

/-- Claim C9: with `faces = None` and `lines = None` the output has exactly
one single-point vertex cell per input point, the i-th referencing point
index `i`, and no polygon cells. -/
theorem c9_vertex_cells (vertices : List (List Int)) (o : Int) (fast : Bool)
    (pd : PolyData)
    (hpd : buildPolyData vertices none none o fast = some pd) :
    pd.vertCells = (List.range vertices.length).map (fun i => [Int.ofNat i]) ∧
    pd.vertCells.length = vertices.length ∧
    pd.polyCells = [] := by
  obtain ⟨hp, hl, hv, hpc⟩ := build_inv hpd
  have hv2 : pd.vertCells =
      (List.range (padPoints vertices).length).map (fun i => [Int.ofNat i]) := hv
  rw [padPoints_length] at hv2
  refine ⟨hv2, ?_, hpc⟩
  rw [hv2, List.length_map, List.length_range]

/-- Witness for C9 at two concrete points. -/
theorem c9_witness :
    (⟨[[0, 0, 0], [1, 1, 1]], [], [[0], [1]], []⟩ : PolyData).vertCells =
      [[0], [1]] ∧
    (⟨[[0, 0, 0], [1, 1, 1]], [], [[0], [1]], []⟩ :
      PolyData).vertCells.length = 2 ∧
    (⟨[[0, 0, 0], [1, 1, 1]], [], [[0], [1]], []⟩ : PolyData).polyCells = [] :=
  c9_vertex_cells [[0, 0, 0], [1, 1, 1]] 0 true
    ⟨[[0, 0, 0], [1, 1, 1]], [], [[0], [1]], []⟩ (by decide)

/-- Claim C10 (counterexample): with `lines = [7,0,1]` and `indexOffset = 1`
the emitted segment is `(0, 1)` — the raw values — not the offset-adjusted
`(-1, 0)` the claim requires. -/
theorem c10_counterexample :
    (buildPolyData [[0, 0, 0], [1, 0, 0]] none (some [7, 0, 1]) 1 true).map
        PolyData.lineCells = some [[0, 1]] ∧
    (buildPolyData [[0, 0, 0], [1, 0, 0]] none (some [7, 0, 1]) 1 true).map
        PolyData.lineCells ≠ some [[-1, 0]] := by
  decide

/-- Claim C10 (amended): `indexOffset` is never applied to line indices —
lines 234-238 store `lines[i]` and `lines[i+1]` unadjusted — so two builds of
the same inputs under any two offsets emit identical line cells, namely the
raw consecutive pairs of the tail of `lines`. -/
theorem c10_lines_ignore_offset (vertices : List (List Int))
    (faces : Option (List (List Int))) (ls : List Int) (o o2 : Int)
    (fast : Bool) (pd pd2 : PolyData)
    (hpd : buildPolyData vertices faces (some ls) o fast = some pd)
    (hpd2 : buildPolyData vertices faces (some ls) o2 fast = some pd2) :
    pd.lineCells = pd2.lineCells ∧
    pd.lineCells = consecPairs (ls.drop 1) := by
  have h : pd.lineCells = lineCellsOf ls := (build_inv hpd).2.1
  have h2 : pd2.lineCells = lineCellsOf ls := (build_inv hpd2).2.1
  rw [h, h2, lineCellsOf_eq_consecPairs]
  exact ⟨rfl, rfl⟩

/-- Witness for C10 (amended) at offsets 1 and 0: both builds emit the same
raw segment. -/
theorem c10_witness :
    (⟨[[0, 0, 0], [1, 0, 0]], [[0, 1]], [[0], [1]], []⟩ :
      PolyData).lineCells =
      (⟨[[0, 0, 0], [1, 0, 0]], [[0, 1]], [[0], [1]], []⟩ :
        PolyData).lineCells ∧
    (⟨[[0, 0, 0], [1, 0, 0]], [[0, 1]], [[0], [1]], []⟩ :
      PolyData).lineCells = consecPairs (([7, 0, 1] : List Int).drop 1) :=
  c10_lines_ignore_offset [[0, 0, 0], [1, 0, 0]] none [7, 0, 1] 1 0 true
    ⟨[[0, 0, 0], [1, 0, 0]], [[0, 1]], [[0], [1]], []⟩
    ⟨[[0, 0, 0], [1, 0, 0]], [[0, 1]], [[0], [1]], []⟩
    (by decide) (by decide)

end Vtk
